import Mathlib

/-!
Verification development for the FactLens backend (`src/backend/main.py`).

The Python module is embedded shallowly:
* Python strings are `List Char`; `str.lower` is `Char.toLower` mapped over
  the characters.
* The knowledge graph, loaded once from `kg.json` into module globals
  (`ENTITIES`, `SOURCES`, `FACTS`), becomes an explicit `KG` value passed to
  every function.
* The external LLM oracle (Groq) is not code of this repository; each call
  site receives the oracle's outcome as an explicit abstract reply value
  (`ExtractReply` / `AssessReply`) covering exactly the cases the Python code
  distinguishes: the call raised, the reply failed JSON validation, or the
  reply parsed with the expected shape.
* Python `float` confidences are modelled as `ℚ`; the only scores the code
  builds are integer token-overlap counts, modelled as `Nat`.
-/

namespace FactLens

/-- Python strings, modelled as lists of characters. -/
abbrev Str := List Char

/-- Coerce a Lean string literal into the model's string type. -/
def str (s : String) : Str := s.data

/-- `s.lower()`. -/
def lowerStr (s : Str) : Str := s.map Char.toLower

/-- A word character in the sense of the regex `\w`: alphanumeric or underscore. -/
def isWordChar (c : Char) : Bool := c.isAlphanum || c = '_'

theorem dropWhile_length_le (p : Char → Bool) (l : Str) :
    (l.dropWhile p).length ≤ l.length :=
  (List.dropWhile_suffix p).sublist.length_le

/-- Maximal runs of word characters with explicit fuel. Each recursive call
consumes at least the current head character, so any fuel at least the
string's length gives the fuel-free meaning: peel the maximal leading run of
word characters, skip the maximal separator run, repeat. The fuel (instead
of well-founded recursion) keeps the definition reducible inside the
kernel, so that concrete inputs evaluate by `decide`. -/
def wordRunsF : Nat → Str → List Str
  | _, [] => []
  | 0, _ :: _ => []
  | fuel + 1, c :: cs =>
    if isWordChar c then
      (c :: cs.takeWhile isWordChar) :: wordRunsF fuel (cs.dropWhile isWordChar)
    else
      wordRunsF fuel cs

/-- Maximal runs of word characters, as produced by `re.findall(r"\w+", s)`. -/
def wordRuns (s : Str) : List Str := wordRunsF s.length s

/-- `tokenize` from `main.py`: `re.findall(r"\w+", s.lower())`. -/
def tokenize (s : Str) : List Str := wordRuns (lowerStr s)

/-- Python whitespace as used by `str.strip()`. -/
def isSpaceChar (c : Char) : Bool := c.isWhitespace

/-- `str.strip()`: drop leading and trailing whitespace. -/
def strip (s : Str) : Str :=
  ((s.dropWhile isSpaceChar).reverse.dropWhile isSpaceChar).reverse

/-- A sentence-terminating character of the split regex `[.\n!?]+`. -/
def isSentBreak (c : Char) : Bool := c = '.' || c = '\n' || c = '!' || c = '?'

/-- Segments between maximal runs of sentence-break characters, with
explicit fuel (same device as `wordRunsF`: each recursive call consumes at
least one character — the break character heading the dropped run — so any
fuel at least the string's length gives the fuel-free meaning). -/
def splitBreaksF : Nat → Str → List Str
  | 0, s => [s.takeWhile (fun c => !isSentBreak c)]
  | fuel + 1, s =>
    match s.dropWhile (fun c => !isSentBreak c) with
    | [] => [s.takeWhile (fun c => !isSentBreak c)]
    | _ :: rs =>
      s.takeWhile (fun c => !isSentBreak c) ::
        splitBreaksF fuel (rs.dropWhile isSentBreak)

/-- `re.split(r"[.\n!?]+", s)`: the (possibly empty) segments between maximal
runs of sentence-break characters, including leading/trailing empty segments. -/
def splitBreaks (s : Str) : List Str := splitBreaksF s.length s

/-- `leadMatch n h`: `h` starts with `n` (helper for substring containment). -/
def leadMatch : Str → Str → Bool
  | [], _ => true
  | _ :: _, [] => false
  | n :: ns, h :: hs => n = h && leadMatch ns hs

/-- `occursIn n h`: Python's `n in h` substring containment test. -/
def occursIn (n : Str) : Str → Bool
  | [] => n.isEmpty
  | c :: cs => leadMatch n (c :: cs) || occursIn n cs

/-! ## Data model (`kg.json` schema and the pydantic response models)

Optional JSON fields read through `dict.get` with a default (`aliases`,
`location_entity_ids`, `object_label`, `evidence_snippet`, ...) are modelled
as total fields; a document omitting the field corresponds to the value
being the default. -/

/-- An entry of the `entities` collection of `kg.json`. -/
structure Entity where
  id : Str
  name : Str
  type_ : Str
  aliases : List Str
deriving DecidableEq

/-- An entry of the `sources` collection of `kg.json`. -/
structure Source where
  id : Str
  title : Str
  publisher : Str
  published_at : Str
  url : Str
deriving DecidableEq

/-- An entry of the `facts` collection of `kg.json`. -/
structure Fact where
  id : Str
  subject_entity_id : Str
  predicate : Str
  object_label : Str
  object_type : Str
  date : Str
  severity : Str
  location_entity_ids : List Str
  evidence_snippet : Str
  source_id : Str
deriving DecidableEq

/-- The knowledge graph: the module globals `ENTITIES`, `SOURCES`, `FACTS`
loaded once from `kg.json`, passed explicitly. -/
structure KG where
  entities : List Entity
  sources : List Source
  facts : List Fact
deriving DecidableEq

/-- `ENTITIES_BY_ID.get(i)`. The dict comprehension keeps the last entry for a
duplicated id; ids are unique keys per the data model, under which first and
last lookup coincide, and we use the first. -/
def lookupEntity (kg : KG) (i : Str) : Option Entity :=
  kg.entities.find? (fun e => e.id = i)

/-- `SOURCES.get(i)`, same convention as `lookupEntity`. -/
def lookupSource (kg : KG) (i : Str) : Option Source :=
  kg.sources.find? (fun s => s.id = i)

/-- The `Citation` pydantic model. -/
structure Citation where
  fact_id : Str
  source_id : Str
deriving DecidableEq

/-- The `VerifyResponse` pydantic model (the `VerificationResult`). -/
structure VerifyResponse where
  claim : Str
  verdict : Str
  confidence : ℚ
  citations : List Citation
  reasoning : Str
deriving DecidableEq

/-! ## Entity linker (`extract_entities`) -/

/-- `extract_entities` from `main.py`: an entity is linked when any of its
name or aliases occurs, case-insensitively, as a substring of the text. The
Python version accumulates ids in a `set` and returns them in unspecified
order; we fix enumeration order of first occurrence (`dedup` models the
set's deduplication), which is equivalent up to membership — the only way
the result is consumed. -/
def extract_entities (kg : KG) (text : Str) : List Str :=
  ((kg.entities.filter
      (fun e => (e.name :: e.aliases).any
        (fun n => occursIn (lowerStr n) (lowerStr text)))).map (fun e => e.id)).dedup

/-! ## Lexical search (`search_kg`) -/

/-- The entity filter inside the fact loop of `search_kg`. `none` is the
Python default `entity_ids=None`; the guard `if entity_ids:` is falsy for
both `None` and the empty list, disabling the filter. -/
def entityPass (entity_ids : Option (List Str)) (f : Fact) : Bool :=
  match entity_ids with
  | none => true
  | some ids =>
    if ids = [] then true
    else decide (f.subject_entity_id ∈ ids)
      || f.location_entity_ids.any (fun l => decide (l ∈ ids))

/-- The fact's token set: tokens of `object_label` and `evidence_snippet`. -/
def factTokens (f : Fact) : List Str :=
  tokenize f.object_label ++ tokenize f.evidence_snippet

/-- `len(q_tokens.intersection(tokens))`: the number of distinct query tokens
that occur among the fact's tokens. -/
def overlapScore (query : Str) (f : Fact) : Nat :=
  ((tokenize query).dedup.filter (fun t => decide (t ∈ factTokens f))).length

/-- The `scored_facts` list built by the loop of `search_kg`, in fact
enumeration order: facts passing the entity filter with non-zero overlap,
paired with their score. -/
def scoredFacts (kg : KG) (query : Str) (entity_ids : Option (List Str)) :
    List (Nat × Fact) :=
  kg.facts.filterMap (fun f =>
    if entityPass entity_ids f then
      if overlapScore query f = 0 then none
      else some (overlapScore query f, f)
    else none)

/-- Insert into a list sorted by score descending, before the first element
of smaller-or-equal score. -/
def insertByScoreDesc (x : Nat × Fact) : List (Nat × Fact) → List (Nat × Fact)
  | [] => [x]
  | y :: ys => if y.1 ≤ x.1 then x :: y :: ys else y :: insertByScoreDesc x ys

/-- `scored_facts.sort(key=lambda x: x[0], reverse=True)`: Python's sort is
stable, and a stable descending sort by key is unique, so insertion sort with
`insertByScoreDesc` computes exactly it. -/
def sortByScoreDesc : List (Nat × Fact) → List (Nat × Fact)
  | [] => []
  | x :: xs => insertByScoreDesc x (sortByScoreDesc xs)

/-- The denormalized evidence dict appended to `results` in `search_kg`.
Python stores the score as `float(score)`; it is always the integer overlap
count, kept as `Nat`. -/
structure EvidenceRecord where
  fact_id : Str
  score : Nat
  subject : Option Entity
  predicate : Str
  object_label : Str
  object_type : Str
  date : Str
  severity : Str
  location_entities : List Entity
  source : Option Source
  evidence_snippet : Str
deriving DecidableEq

/-- Building one result record from a scored fact. -/
def denorm (kg : KG) (p : Nat × Fact) : EvidenceRecord :=
  ⟨p.2.id, p.1, lookupEntity kg p.2.subject_entity_id, p.2.predicate,
   p.2.object_label, p.2.object_type, p.2.date, p.2.severity,
   p.2.location_entity_ids.filterMap (lookupEntity kg),
   lookupSource kg p.2.source_id, p.2.evidence_snippet⟩

/-- `search_kg` from `main.py`. `top_k` is a count (`Nat`); the Python slice
`scored_facts[:top_k]` at a non-negative `top_k` is `List.take`, and the only
call site uses `top_k=5`. -/
def search_kg (kg : KG) (query : Str) (entity_ids : Option (List Str))
    (top_k : Nat) : List EvidenceRecord :=
  ((sortByScoreDesc (scoredFacts kg query entity_ids)).take top_k).map (denorm kg)

/-! ## Heuristic claim fallback (`_heuristic_claim_from_text`) -/

/-- The per-fragment step of the loop of `_heuristic_claim_from_text`:
`p = p.strip(); if not p: continue; if len(tokenize(p)) >= 4: return p`. -/
def fragmentClaim (p : Str) : Option Str :=
  let q := strip p
  if q = [] then none
  else if 4 ≤ (tokenize q).length then some q
  else none

/-- `_heuristic_claim_from_text` from `main.py`. -/
def heuristicClaim (text : Str) : Option Str :=
  let stripped := strip text
  if stripped = [] then none
  else
    match (splitBreaks stripped).findSome? fragmentClaim with
    | some q => some q
    | none => some stripped

/-- The fallback expression `[hc] if hc else []` used by
`extract_claims_via_llm` (Python truthiness: `None` and the empty string are
both falsy). -/
def claimsFromHeuristic (text : Str) : List Str :=
  match heuristicClaim text with
  | none => []
  | some c => if c = [] then [] else [c]

/-! ## Oracle-assisted claim extraction (`extract_claims_via_llm`)

The Groq call and JSON parsing are external; their outcome is passed in as
an `ExtractReply`. -/

/-- Outcome of the claim-extraction oracle round-trip, as distinguished by
`extract_claims_via_llm`: the call raised; the reply failed to parse as a
JSON list; or it parsed as a list whose items are strings (`some s`) or
non-strings (`none`, filtered by the `isinstance(c, str)` check). -/
inductive ExtractReply where
  | err
  | notArray
  | arr (items : List (Option Str))
deriving DecidableEq

/-- `[c.strip() for c in claims if isinstance(c, str) and c.strip()]`. -/
def cleanedClaims (items : List (Option Str)) : List Str :=
  items.filterMap (fun it =>
    match it with
    | none => none
    | some s => if strip s = [] then none else some (strip s))

/-- `extract_claims_via_llm` from `main.py`. -/
def extract_claims_via_llm (text : Str) (reply : ExtractReply) : List Str :=
  match reply with
  | .err => claimsFromHeuristic text
  | .notArray => claimsFromHeuristic text
  | .arr items =>
    match cleanedClaims items with
    | [] => claimsFromHeuristic text
    | c :: cs => c :: cs

/-! ## Oracle-assisted verdict assessment (`assess_claim_via_llm`) -/

/-- The assessment dict returned by `assess_claim_via_llm`. -/
structure Assessment where
  verdict : Str
  confidence : ℚ
  citations : List Str
  reasoning : Str
deriving DecidableEq

/-- Outcome of the assessment oracle round-trip, as distinguished by
`assess_claim_via_llm`: the call raised; the reply was not valid JSON, not a
dict, or missing one of the four required fields (all reaching the final
fallback return); or it had all four fields. A non-numeric `confidence`
(`float(...)` raises) is `none`. Citation items are strings; a non-string
hashable item can never equal a fact id and behaves like a string outside
the evidence set. -/
inductive AssessReply where
  | err
  | malformed
  | ok (verdict : Str) (confidence : Option ℚ) (citations : List Str) (reasoning : Str)
deriving DecidableEq

/-- `max(0.0, min(1.0, conf))`, written with `if` so that it reduces inside
the kernel; `clamp01_eq_max_min` below proves it equal to `max 0 (min 1 q)`. -/
def clamp01 (q : ℚ) : ℚ := if q ≤ 0 then 0 else if 1 ≤ q then 1 else q

theorem clamp01_eq_max_min (q : ℚ) : clamp01 q = max 0 (min 1 q) := by
  rw [clamp01, max_def, min_def]
  split_ifs <;> linarith

/-- `assess_claim_via_llm` from `main.py`. The `claim` argument only feeds
the prompt. -/
def assess_claim_via_llm (claim : Str) (kg_evidence : List EvidenceRecord)
    (reply : AssessReply) : Assessment :=
  match reply with
  | .err =>
    ⟨str "Unverifiable", 1/2, [],
     str "LLM call failed; treating claim as unverifiable."⟩
  | .malformed =>
    ⟨str "Unverifiable", 1/2, [],
     str "Could not parse model output. Treating as unverifiable."⟩
  | .ok v conf cits r =>
    let valid := kg_evidence.map (fun e => e.fact_id)
    ⟨v,
     match conf with
     | none => 1/2
     | some q => clamp01 q,
     cits.filter (fun c => decide (c ∈ valid)),
     r⟩

/-! ## The `/verify` endpoint (`verify`) -/

/-- Step 5 of `verify`: re-resolve each cited fact id against `FACTS`
(`next((f for f in FACTS if f["id"] == fact_id), None)`), dropping ids not
found, and attach the fact's `source_id`. -/
def buildCitations (kg : KG) (ids : List Str) : List Citation :=
  ids.filterMap (fun fid =>
    match kg.facts.find? (fun f => f.id = fid) with
    | none => none
    | some f => some ⟨fid, f.source_id⟩)

/-- `verify` from `main.py`, with the two oracle outcomes passed in. The
locals `text = (req.text or "").strip()`, `kg_evidence` and `assessment` are
inlined (all expressions are pure). -/
def verify (kg : KG) (rawText : Str) (er : ExtractReply) (ar : AssessReply) :
    VerifyResponse :=
  if strip rawText = [] then
    ⟨[], str "Unverifiable", 1/2, [], str "No text provided."⟩
  else
    match extract_claims_via_llm (strip rawText) er with
    | [] =>
      ⟨[], str "Unverifiable", 1/2, [],
       str "No verifiable factual claim found in the text."⟩
    | claim :: _ =>
      if search_kg kg claim (some (extract_entities kg claim)) 5 = [] then
        ⟨claim, str "Unverifiable", 1/2, [],
         str "No relevant evidence was found in the knowledge graph."⟩
      else
        ⟨claim,
         (assess_claim_via_llm claim
           (search_kg kg claim (some (extract_entities kg claim)) 5) ar).verdict,
         (assess_claim_via_llm claim
           (search_kg kg claim (some (extract_entities kg claim)) 5) ar).confidence,
         buildCitations kg
           (assess_claim_via_llm claim
             (search_kg kg claim (some (extract_entities kg claim)) 5) ar).citations,
         (assess_claim_via_llm claim
           (search_kg kg claim (some (extract_entities kg claim)) 5) ar).reasoning⟩

/-- The evidence list `kg_evidence` that `verify` passes to the verdict
step for a request (empty when a short-circuit fires before the search). -/
def pipelineEvidence (kg : KG) (rawText : Str) (er : ExtractReply) :
    List EvidenceRecord :=
  if strip rawText = [] then []
  else
    match extract_claims_via_llm (strip rawText) er with
    | [] => []
    | claim :: _ => search_kg kg claim (some (extract_entities kg claim)) 5

/-! ## Auxiliary definitions used by the claim statements -/

/-- The citation list carried by an assessment reply (empty for the failure
outcomes, which never contribute citations). -/
def replyCitationIds : AssessReply → List Str
  | .ok _ _ cits _ => cits
  | _ => []

/-- The four verdict enum values of the spec. -/
def verdictEnum : List Str :=
  [str "True", str "False", str "Partly True", str "Unverifiable"]

/-- Whether an assessment reply's verdict field is one of the four enum
values (vacuously true for the failure outcomes, which produce the
`Unverifiable` fallback). -/
def replyVerdictIsEnum : AssessReply → Bool
  | .ok v _ _ _ => decide (v ∈ verdictEnum)
  | _ => true

/-- Spec-shaped restatement of the heuristic claim fallback, for the
refinement theorem of claim C9, following the spec's words: split the
trimmed text on sentence-terminating punctuation or newlines, return the
first fragment containing at least 4 tokens; if none qualifies, return the
whole trimmed text as a single claim; if the text is empty, return zero
claims. -/
def heuristicClaimsSpec (text : Str) : List Str :=
  if strip text = [] then []
  else
    match ((splitBreaks (strip text)).map strip).find?
        (fun q => decide (4 ≤ (tokenize q).length)) with
    | some q => [q]
    | none => [strip text]

/-- Case-equivalence of two entity records: same id, same name and aliases
up to letter case. -/
def entCaseEq (e e' : Entity) : Prop :=
  e.id = e'.id ∧ lowerStr e.name = lowerStr e'.name ∧
    e.aliases.map lowerStr = e'.aliases.map lowerStr

/-! ## A small concrete knowledge graph and oracle replies, used by the
witness and counterexample theorems -/

/-- Demo entity. -/
def entLakeside : Entity :=
  ⟨str "ent_lakeside", str "Lakeside City", str "place", [str "lakeside"]⟩

/-- Demo source. -/
def srcBulletin : Source :=
  ⟨str "src_1", str "Bulletin", str "NWB", str "2023-03-21", str "http://x"⟩

/-- Demo fact about the demo entity. -/
def factAmber : Fact :=
  ⟨str "fact_1", str "ent_lakeside", str "issued_warning",
   str "Amber Rain Warning", str "warning", str "2023-03-21", str "amber",
   [str "ent_lakeside"], str "amber rain in lakeside", str "src_1"⟩

/-- A second demo fact with a different subject and no locations. -/
def factRain : Fact :=
  ⟨str "fact_2", str "ent_other", str "says", str "rain today", str "note",
   str "2023-03-20", str "low", [], str "rain expected", str "src_1"⟩

/-- Demo knowledge graph. -/
def kgDemo : KG := ⟨[entLakeside], [srcBulletin], [factAmber, factRain]⟩

/-- Demo request text. -/
def demoText : Str := str "amber rain warning for lakeside"

/-- Demo claim-extraction reply: a JSON array holding one claim string. -/
def erDemo : ExtractReply := .arr [some demoText]

/-! ## Fuel sufficiency: the fuel-based splitters satisfy the fuel-free
recurrences, so `wordRuns` and `splitBreaks` compute exactly the regex
semantics they embed -/

theorem wordRunsF_congr : ∀ (fuel fuel' : Nat) (s : Str),
    s.length ≤ fuel → s.length ≤ fuel' → wordRunsF fuel s = wordRunsF fuel' s := by
  intro fuel
  induction fuel with
  | zero =>
    intro fuel' s hs hs'
    have h0 : s = [] := List.eq_nil_of_length_eq_zero (Nat.le_zero.mp hs)
    subst h0
    cases fuel' <;> rfl
  | succ n ih =>
    intro fuel' s hs hs'
    cases s with
    | nil => cases fuel' <;> rfl
    | cons c cs =>
      cases fuel' with
      | zero => exact absurd hs' (by simp)
      | succ m =>
        rw [List.length_cons, Nat.succ_le_succ_iff] at hs hs'
        rw [wordRunsF, wordRunsF]
        by_cases hc : isWordChar c
        · rw [if_pos hc, if_pos hc]
          congr 1
          exact ih m _ (Nat.le_trans (dropWhile_length_le _ _) hs)
            (Nat.le_trans (dropWhile_length_le _ _) hs')
        · rw [if_neg hc, if_neg hc]
          exact ih m cs hs hs'

/-- `wordRuns` satisfies the fuel-free recurrence of `re.findall(r"\w+", ·)`:
peel the maximal leading run of word characters, drop the separators, repeat. -/
theorem wordRuns_cons (c : Char) (cs : Str) :
    wordRuns (c :: cs) =
      if isWordChar c then
        (c :: cs.takeWhile isWordChar) :: wordRuns (cs.dropWhile isWordChar)
      else wordRuns cs := by
  show wordRunsF (c :: cs).length (c :: cs) = _
  rw [List.length_cons, wordRunsF]
  by_cases hc : isWordChar c
  · rw [if_pos hc, if_pos hc]
    congr 1
    exact wordRunsF_congr _ _ _ (dropWhile_length_le _ _) (Nat.le_refl _)
  · rw [if_neg hc, if_neg hc]
    exact wordRunsF_congr _ _ _ (Nat.le_refl _) (Nat.le_refl _)

theorem splitBreaksF_congr : ∀ (fuel fuel' : Nat) (s : Str),
    s.length ≤ fuel → s.length ≤ fuel' →
    splitBreaksF fuel s = splitBreaksF fuel' s := by
  intro fuel
  induction fuel with
  | zero =>
    intro fuel' s hs hs'
    have h0 : s = [] := List.eq_nil_of_length_eq_zero (Nat.le_zero.mp hs)
    subst h0
    cases fuel' <;> rfl
  | succ n ih =>
    intro fuel' s hs hs'
    cases fuel' with
    | zero =>
      have h0 : s = [] := List.eq_nil_of_length_eq_zero (Nat.le_zero.mp hs')
      subst h0
      rfl
    | succ m =>
      cases hdrop : s.dropWhile (fun c => !isSentBreak c) with
      | nil => simp only [splitBreaksF, hdrop]
      | cons r rs =>
        have hlen : rs.length + 1 ≤ s.length := by
          have h1 := dropWhile_length_le (fun c => !isSentBreak c) s
          rw [hdrop] at h1
          simpa using h1
        simp only [splitBreaksF, hdrop]
        congr 1
        exact ih m _
          (Nat.le_trans (dropWhile_length_le _ _)
            (Nat.le_of_succ_le_succ (Nat.le_trans hlen hs)))
          (Nat.le_trans (dropWhile_length_le _ _)
            (Nat.le_of_succ_le_succ (Nat.le_trans hlen hs')))

/-- `splitBreaks` satisfies the fuel-free recurrence of
`re.split(r"[.\n!?]+", ·)`: emit the segment before the first break
character; if any input remains, drop the maximal break run and repeat. -/
theorem splitBreaks_eq (s : Str) :
    splitBreaks s =
      match s.dropWhile (fun c => !isSentBreak c) with
      | [] => [s.takeWhile (fun c => !isSentBreak c)]
      | _ :: rs =>
        s.takeWhile (fun c => !isSentBreak c) ::
          splitBreaks (rs.dropWhile isSentBreak) := by
  cases s with
  | nil => rfl
  | cons c cs =>
    show splitBreaksF (c :: cs).length (c :: cs) = _
    rw [List.length_cons]
    cases hdrop : (c :: cs).dropWhile (fun x => !isSentBreak x) with
    | nil => simp only [splitBreaksF, hdrop]
    | cons r rs =>
      have hlen : rs.length + 1 ≤ cs.length + 1 := by
        have h1 := dropWhile_length_le (fun x => !isSentBreak x) (c :: cs)
        rw [hdrop] at h1
        simpa using h1
      simp only [splitBreaksF, hdrop]
      congr 1
      exact splitBreaksF_congr _ _ _
        (Nat.le_trans (dropWhile_length_le _ _) (Nat.le_of_succ_le_succ hlen))
        (Nat.le_refl _)

/-! ## Lemmas about the stable descending sort -/

theorem mem_insertByScoreDesc {a x : Nat × Fact} {l : List (Nat × Fact)} :
    a ∈ insertByScoreDesc x l ↔ a = x ∨ a ∈ l := by
  induction l with
  | nil => simp [insertByScoreDesc]
  | cons y ys ih =>
    rw [insertByScoreDesc]
    by_cases hyx : y.1 ≤ x.1
    · simp only [if_pos hyx, List.mem_cons]
    · simp only [if_neg hyx, List.mem_cons, ih]
      tauto

theorem pairwise_insertByScoreDesc {x : Nat × Fact} {l : List (Nat × Fact)}
    (h : l.Pairwise (fun a b => b.1 ≤ a.1)) :
    (insertByScoreDesc x l).Pairwise (fun a b => b.1 ≤ a.1) := by
  induction l with
  | nil => simp [insertByScoreDesc]
  | cons y ys ih =>
    rw [insertByScoreDesc]
    rcases List.pairwise_cons.mp h with ⟨hy, hys⟩
    by_cases hyx : y.1 ≤ x.1
    · rw [if_pos hyx]
      refine List.pairwise_cons.mpr ⟨?_, h⟩
      intro b hb
      rcases List.mem_cons.mp hb with rfl | hb
      · exact hyx
      · exact Nat.le_trans (hy b hb) hyx
    · rw [if_neg hyx]
      refine List.pairwise_cons.mpr ⟨?_, ih hys⟩
      intro b hb
      rcases mem_insertByScoreDesc.mp hb with rfl | hb
      · exact Nat.le_of_lt (Nat.lt_of_not_le hyx)
      · exact hy b hb

theorem mem_sortByScoreDesc {a : Nat × Fact} {l : List (Nat × Fact)} :
    a ∈ sortByScoreDesc l ↔ a ∈ l := by
  induction l with
  | nil => simp [sortByScoreDesc]
  | cons x xs ih =>
    rw [sortByScoreDesc]
    rw [mem_insertByScoreDesc, ih, List.mem_cons]

theorem pairwise_sortByScoreDesc (l : List (Nat × Fact)) :
    (sortByScoreDesc l).Pairwise (fun a b => b.1 ≤ a.1) := by
  induction l with
  | nil => exact List.Pairwise.nil
  | cons x xs ih => exact pairwise_insertByScoreDesc ih

theorem perm_insertByScoreDesc (x : Nat × Fact) (l : List (Nat × Fact)) :
    (insertByScoreDesc x l).Perm (x :: l) := by
  induction l with
  | nil => exact List.Perm.refl _
  | cons y ys ih =>
    rw [insertByScoreDesc]
    by_cases hyx : y.1 ≤ x.1
    · rw [if_pos hyx]
    · rw [if_neg hyx]
      exact (List.Perm.cons y ih).trans (List.Perm.swap x y ys)

theorem perm_sortByScoreDesc (l : List (Nat × Fact)) :
    (sortByScoreDesc l).Perm l := by
  induction l with
  | nil => exact List.Perm.refl _
  | cons x xs ih =>
    exact (perm_insertByScoreDesc x (sortByScoreDesc xs)).trans (List.Perm.cons x ih)

theorem filter_insertByScoreDesc (x : Nat × Fact) (l : List (Nat × Fact)) (s : Nat) :
    (insertByScoreDesc x l).filter (fun p => decide (p.1 = s)) =
      if x.1 = s then x :: l.filter (fun p => decide (p.1 = s))
      else l.filter (fun p => decide (p.1 = s)) := by
  induction l with
  | nil =>
    rw [insertByScoreDesc]
    by_cases hxs : x.1 = s <;> simp [List.filter_cons, hxs]
  | cons y ys ih =>
    rw [insertByScoreDesc]
    by_cases hyx : y.1 ≤ x.1
    · rw [if_pos hyx]
      by_cases hxs : x.1 = s <;> simp [List.filter_cons, hxs]
    · rw [if_neg hyx]
      by_cases hxs : x.1 = s
      · have hys : ¬ y.1 = s := by omega
        simp [List.filter_cons, hys, ih, hxs]
      · by_cases hys : y.1 = s <;> simp [List.filter_cons, hys, ih, hxs]

theorem filter_sortByScoreDesc (l : List (Nat × Fact)) (s : Nat) :
    (sortByScoreDesc l).filter (fun p => decide (p.1 = s)) =
      l.filter (fun p => decide (p.1 = s)) := by
  induction l with
  | nil => rfl
  | cons x xs ih =>
    rw [sortByScoreDesc, filter_insertByScoreDesc]
    by_cases hxs : x.1 = s <;> simp [List.filter_cons, hxs, ih]

/-! ## Lemmas about `scoredFacts`, `search_kg`, citations and assessment -/

theorem of_mem_scoredFacts {kg : KG} {q : Str} {e : Option (List Str)}
    {p : Nat × Fact} (hp : p ∈ scoredFacts kg q e) :
    p.2 ∈ kg.facts ∧ entityPass e p.2 = true ∧
      p.1 = overlapScore q p.2 ∧ p.1 ≠ 0 := by
  rw [scoredFacts, List.mem_filterMap] at hp
  obtain ⟨f, hf, hsome⟩ := hp
  by_cases h1 : entityPass e f
  · rw [if_pos h1] at hsome
    by_cases h2 : overlapScore q f = 0
    · rw [if_pos h2] at hsome
      exact absurd hsome (by simp)
    · rw [if_neg h2] at hsome
      cases hsome
      exact ⟨hf, h1, rfl, h2⟩
  · rw [if_neg h1] at hsome
    exact absurd hsome (by simp)

theorem scoredFacts_eq_nil {kg : KG} {q : Str} {e : Option (List Str)}
    (h : ∀ f ∈ kg.facts, overlapScore q f = 0) :
    scoredFacts kg q e = [] := by
  rw [scoredFacts]
  rw [List.filterMap_eq_nil_iff]
  intro f hf
  rw [h f hf]
  by_cases h1 : entityPass e f <;> simp [h1]

theorem of_mem_search_kg {kg : KG} {q : Str} {e : Option (List Str)} {k : Nat}
    {r : EvidenceRecord} (hr : r ∈ search_kg kg q e k) :
    ∃ p ∈ scoredFacts kg q e, r = denorm kg p := by
  rw [search_kg, List.mem_map] at hr
  obtain ⟨p, hp, rfl⟩ := hr
  exact ⟨p, mem_sortByScoreDesc.mp ((List.take_sublist _ _).subset hp), rfl⟩

theorem of_mem_buildCitations {kg : KG} {ids : List Str} {c : Citation}
    (hc : c ∈ buildCitations kg ids) :
    c.fact_id ∈ ids ∧ ∃ f ∈ kg.facts, f.id = c.fact_id := by
  rw [buildCitations, List.mem_filterMap] at hc
  obtain ⟨fid, hfid, hsome⟩ := hc
  cases hfind : kg.facts.find? (fun f => decide (f.id = fid)) with
  | none => rw [hfind] at hsome; exact absurd hsome (by simp)
  | some f =>
    rw [hfind] at hsome
    simp only [Option.some.injEq] at hsome
    cases hsome
    refine ⟨hfid, f, List.mem_of_find?_eq_some hfind, ?_⟩
    have := List.find?_some hfind
    simpa using this

theorem buildCitations_map_fact_id (kg : KG) (ids : List Str) :
    (buildCitations kg ids).map (fun c => c.fact_id) =
      ids.filter (fun i => (kg.facts.find? (fun f => decide (f.id = i))).isSome) := by
  induction ids with
  | nil => rfl
  | cons i is ih =>
    rw [buildCitations, List.filterMap_cons]
    cases hfind : kg.facts.find? (fun f => decide (f.id = i)) with
    | none => simpa [List.filter_cons, hfind, buildCitations] using ih
    | some f => simpa [List.filter_cons, hfind, buildCitations] using ih

theorem assess_citations_subset (claim : Str) (ev : List EvidenceRecord)
    (reply : AssessReply) :
    ∀ c ∈ (assess_claim_via_llm claim ev reply).citations,
      c ∈ ev.map (fun e => e.fact_id) := by
  intro c hc
  cases reply with
  | err => simp [assess_claim_via_llm] at hc
  | malformed => simp [assess_claim_via_llm] at hc
  | ok v conf cits r =>
    simp only [assess_claim_via_llm] at hc
    have := List.of_mem_filter hc
    simpa using this

theorem assess_citations_sublist (claim : Str) (ev : List EvidenceRecord)
    (reply : AssessReply) :
    (assess_claim_via_llm claim ev reply).citations.Sublist
      (replyCitationIds reply) := by
  cases reply with
  | err => simp [assess_claim_via_llm, replyCitationIds]
  | malformed => simp [assess_claim_via_llm, replyCitationIds]
  | ok v conf cits r =>
    simp only [assess_claim_via_llm, replyCitationIds]
    exact List.filter_sublist _

/-! ## Lemmas about the heuristic claim fallback -/

theorem tokenize_nil : tokenize [] = [] := rfl

theorem fragmentClaim_eq (p : Str) :
    fragmentClaim p =
      if 4 ≤ (tokenize (strip p)).length then some (strip p) else none := by
  rw [fragmentClaim]
  by_cases h0 : strip p = []
  · simp [h0, tokenize_nil]
  · simp [h0]

theorem findSome_fragmentClaim (parts : List Str) :
    parts.findSome? fragmentClaim =
      (parts.map strip).find? (fun q => decide (4 ≤ (tokenize q).length)) := by
  induction parts with
  | nil => rfl
  | cons p ps ih =>
    rw [List.findSome?_cons, List.map_cons, List.find?, fragmentClaim_eq]
    by_cases h : 4 ≤ (tokenize (strip p)).length
    · simp [h]
    · simp [h, ih]

theorem claimsFromHeuristic_eq_spec (text : Str) :
    claimsFromHeuristic text = heuristicClaimsSpec text := by
  rw [claimsFromHeuristic, heuristicClaim, heuristicClaimsSpec]
  by_cases hs : strip text = []
  · simp [hs]
  · simp only [if_neg hs, findSome_fragmentClaim]
    cases hfind : ((splitBreaks (strip text)).map strip).find?
        (fun q => decide (4 ≤ (tokenize q).length)) with
    | none => simp [hs]
    | some q =>
      have hq : 4 ≤ (tokenize q).length := by
        have := List.find?_some hfind
        simpa using this
      have hq' : ¬ q = [] := by
        intro h0
        rw [h0, tokenize_nil] at hq
        exact absurd hq (by simp)
      simp [hq']

theorem claimsFromHeuristic_ne_nil {text : Str} (h : strip text ≠ []) :
    claimsFromHeuristic text ≠ [] := by
  rw [claimsFromHeuristic_eq_spec, heuristicClaimsSpec, if_neg h]
  cases hfind : ((splitBreaks (strip text)).map strip).find?
      (fun q => decide (4 ≤ (tokenize q).length)) <;> simp

/-! ## Lemmas about substring containment and the entity linker -/

theorem leadMatch_iff (n : Str) : ∀ (h : Str),
    leadMatch n h = true ↔ ∃ t, h = n ++ t := by
  induction n with
  | nil => intro h; simp [leadMatch]
  | cons a as ih =>
    intro h
    cases h with
    | nil =>
      rw [leadMatch]
      simp
    | cons b bs =>
      rw [leadMatch]
      simp only [Bool.and_eq_true, decide_eq_true_eq, ih, List.cons_append,
        List.cons.injEq]
      constructor
      · rintro ⟨rfl, t, rfl⟩
        exact ⟨t, rfl, rfl⟩
      · rintro ⟨t, rfl, rfl⟩
        exact ⟨rfl, t, rfl⟩

theorem occursIn_iff (n : Str) : ∀ (h : Str),
    occursIn n h = true ↔ ∃ pre suf, h = pre ++ n ++ suf := by
  intro h
  induction h with
  | nil =>
    rw [occursIn]
    simp only [List.isEmpty_iff]
    constructor
    · rintro rfl
      exact ⟨[], [], rfl⟩
    · rintro ⟨pre, suf, hps⟩
      have := hps.symm
      rw [List.append_assoc] at this
      rcases List.append_eq_nil.mp this with ⟨-, h2⟩
      exact (List.append_eq_nil.mp h2).1
  | cons c cs ih =>
    rw [occursIn]
    simp only [Bool.or_eq_true, leadMatch_iff, ih]
    constructor
    · rintro (⟨t, ht⟩ | ⟨pre, suf, hps⟩)
      · exact ⟨[], t, by simp [ht]⟩
      · exact ⟨c :: pre, suf, by simp [hps]⟩
    · rintro ⟨pre, suf, hps⟩
      cases pre with
      | nil =>
        left
        exact ⟨suf, by simpa using hps⟩
      | cons p0 ps =>
        right
        rw [List.cons_append, List.cons_append, List.cons.injEq] at hps
        exact ⟨ps, suf, hps.2⟩

theorem any_occursIn_lower (t : Str) : ∀ (l : List Str),
    (l.any fun n => occursIn (lowerStr n) t) =
      ((l.map lowerStr).any fun m => occursIn m t)
  | [] => rfl
  | x :: xs => by
    rw [List.any_cons, List.map_cons, List.any_cons, any_occursIn_lower t xs]

theorem extract_entities_ents_congr {t : Str} {E E' : List Entity}
    (he : List.Forall₂ entCaseEq E E') :
    (E.filter (fun e => (e.name :: e.aliases).any
        (fun n => occursIn (lowerStr n) (lowerStr t)))).map (fun e => e.id) =
    (E'.filter (fun e => (e.name :: e.aliases).any
        (fun n => occursIn (lowerStr n) (lowerStr t)))).map (fun e => e.id) := by
  induction he with
  | nil => rfl
  | cons hab hrest ih =>
    rename_i a b as bs
    obtain ⟨hid, hname, hal⟩ := hab
    have h1 : (a.name :: a.aliases).map lowerStr = (b.name :: b.aliases).map lowerStr := by
      rw [List.map_cons, List.map_cons, hname, hal]
    have hpred : ((a.name :: a.aliases).any fun n => occursIn (lowerStr n) (lowerStr t))
               = ((b.name :: b.aliases).any fun n => occursIn (lowerStr n) (lowerStr t)) := by
      rw [any_occursIn_lower, any_occursIn_lower, h1]
    rw [List.filter_cons, List.filter_cons, hpred]
    by_cases hb : ((b.name :: b.aliases).any fun n => occursIn (lowerStr n) (lowerStr t)) = true
    · simp only [hb, if_true, List.map_cons, ih, hid]
    · simp only [Bool.not_eq_true] at hb
      simp only [hb, Bool.false_eq_true, if_false, ih]

/-! ## Branch lemmas for `verify` -/

theorem verify_empty_text {kg : KG} {rawText : Str} {er : ExtractReply}
    {ar : AssessReply} (h1 : strip rawText = []) :
    verify kg rawText er ar =
      ⟨[], str "Unverifiable", 1/2, [], str "No text provided."⟩ := by
  rw [verify, if_pos h1]

theorem verify_no_claims {kg : KG} {rawText : Str} {er : ExtractReply}
    {ar : AssessReply} (h1 : strip rawText ≠ [])
    (h2 : extract_claims_via_llm (strip rawText) er = []) :
    verify kg rawText er ar =
      ⟨[], str "Unverifiable", 1/2, [],
       str "No verifiable factual claim found in the text."⟩ := by
  rw [verify, if_neg h1]
  simp only [h2]

theorem verify_no_evidence {kg : KG} {rawText : Str} {er : ExtractReply}
    {ar : AssessReply} {claim : Str} {rest : List Str}
    (h1 : strip rawText ≠ [])
    (h2 : extract_claims_via_llm (strip rawText) er = claim :: rest)
    (h3 : search_kg kg claim (some (extract_entities kg claim)) 5 = []) :
    verify kg rawText er ar =
      ⟨claim, str "Unverifiable", 1/2, [],
       str "No relevant evidence was found in the knowledge graph."⟩ := by
  rw [verify, if_neg h1]
  simp only [h2]
  rw [if_pos h3]

theorem verify_assessed {kg : KG} {rawText : Str} {er : ExtractReply}
    {ar : AssessReply} {claim : Str} {rest : List Str}
    (h1 : strip rawText ≠ [])
    (h2 : extract_claims_via_llm (strip rawText) er = claim :: rest)
    (h3 : search_kg kg claim (some (extract_entities kg claim)) 5 ≠ []) :
    verify kg rawText er ar =
      ⟨claim,
       (assess_claim_via_llm claim
         (search_kg kg claim (some (extract_entities kg claim)) 5) ar).verdict,
       (assess_claim_via_llm claim
         (search_kg kg claim (some (extract_entities kg claim)) 5) ar).confidence,
       buildCitations kg
         (assess_claim_via_llm claim
           (search_kg kg claim (some (extract_entities kg claim)) 5) ar).citations,
       (assess_claim_via_llm claim
         (search_kg kg claim (some (extract_entities kg claim)) 5) ar).reasoning⟩ := by
  rw [verify, if_neg h1]
  simp only [h2]
  rw [if_neg h3]

theorem pipelineEvidence_of_claim {kg : KG} {rawText : Str} {er : ExtractReply}
    {claim : Str} {rest : List Str}
    (h1 : strip rawText ≠ [])
    (h2 : extract_claims_via_llm (strip rawText) er = claim :: rest) :
    pipelineEvidence kg rawText er =
      search_kg kg claim (some (extract_entities kg claim)) 5 := by
  rw [pipelineEvidence, if_neg h1]
  simp only [h2]

/-! ## Claim theorems -/

/-- C2: for every claim and evidence list, if the oracle call raises
(`AssessReply.err`) or its reply is not valid JSON / not a dict / missing one
of the four required fields (`AssessReply.malformed`), verdict assessment
does not propagate the failure: it returns the fixed fallback with
verdict = "Unverifiable", confidence = 0.5 and no citations. -/
theorem C2_assess_failure_fallback (claim : Str) (ev : List EvidenceRecord) :
    (assess_claim_via_llm claim ev .err).verdict = str "Unverifiable" ∧
    (assess_claim_via_llm claim ev .err).confidence = 1/2 ∧
    (assess_claim_via_llm claim ev .err).citations = [] ∧
    (assess_claim_via_llm claim ev .malformed).verdict = str "Unverifiable" ∧
    (assess_claim_via_llm claim ev .malformed).confidence = 1/2 ∧
    (assess_claim_via_llm claim ev .malformed).citations = [] :=
  ⟨rfl, rfl, rfl, rfl, rfl, rfl⟩

/-- C5: lexical search returns at most `top_k` records, every returned
record has a strictly positive token-overlap score, and a query with zero
token overlap against every fact yields the empty sequence. -/
theorem C5_search_topk_positive_scores (kg : KG) (query : Str)
    (entity_ids : Option (List Str)) (top_k : Nat) :
    (search_kg kg query entity_ids top_k).length ≤ top_k ∧
    (∀ r ∈ search_kg kg query entity_ids top_k, 0 < r.score) ∧
    ((∀ f ∈ kg.facts, overlapScore query f = 0) →
      search_kg kg query entity_ids top_k = []) := by
  refine ⟨?_, ?_, ?_⟩
  · rw [search_kg, List.length_map, List.length_take]
    exact Nat.min_le_left _ _
  · intro r hr
    obtain ⟨p, hp, rfl⟩ := of_mem_search_kg hr
    have h := of_mem_scoredFacts hp
    have : (denorm kg p).score = p.1 := rfl
    rw [this]
    exact Nat.pos_of_ne_zero h.2.2.2
  · intro hz
    rw [search_kg, scoredFacts_eq_nil hz]
    simp [sortByScoreDesc]

/-- C5 witness: at the demo knowledge graph, at most 5 records come back,
and a query sharing no token with any fact returns the empty sequence. -/
theorem C5_search_topk_positive_scores_witness :
    (search_kg kgDemo demoText none 5).length ≤ 5 ∧
    search_kg kgDemo (str "zzz qqq") none 5 = [] :=
  ⟨(C5_search_topk_positive_scores kgDemo demoText none 5).1,
   (C5_search_topk_positive_scores kgDemo (str "zzz qqq") none 5).2.2 (by decide)⟩

/-- C6: lexical search results are sorted by descending score; facts with
equal scores retain the relative order in which they appear in the
knowledge-graph document (the sorted scored list filtered to any one score
value equals the enumeration-ordered scored list filtered to it); and two
calls with the same arguments return identical ordered sequences. -/
theorem C6_search_sorted_stable_deterministic (kg : KG) (query : Str)
    (entity_ids : Option (List Str)) (top_k : Nat) :
    (search_kg kg query entity_ids top_k).Pairwise
      (fun a b => b.score ≤ a.score) ∧
    (∀ s : Nat,
      (sortByScoreDesc (scoredFacts kg query entity_ids)).filter
          (fun p => decide (p.1 = s)) =
        (scoredFacts kg query entity_ids).filter (fun p => decide (p.1 = s))) ∧
    search_kg kg query entity_ids top_k = search_kg kg query entity_ids top_k := by
  refine ⟨?_, fun s => filter_sortByScoreDesc _ s, rfl⟩
  rw [search_kg]
  refine List.pairwise_map.mpr ?_
  exact List.Pairwise.sublist (List.take_sublist _ _)
    (pairwise_sortByScoreDesc (scoredFacts kg query entity_ids))

/-- C6 witness: on the demo knowledge graph the tie-break equality holds at
score 1, via the theorem. -/
theorem C6_search_sorted_stable_deterministic_witness :
    (sortByScoreDesc (scoredFacts kgDemo demoText none)).filter
        (fun p => decide (p.1 = 1)) =
      (scoredFacts kgDemo demoText none).filter (fun p => decide (p.1 = 1)) :=
  (C6_search_sorted_stable_deterministic kgDemo demoText none 5).2.1 1

/-- C9: when the oracle call fails (`ExtractReply.err`) or its reply cannot
be parsed as a JSON array (`ExtractReply.notArray`), claim extraction equals
the spec-shaped heuristic: split the trimmed text on sentence-terminating
punctuation or newlines, return the first fragment with at least 4 tokens as
the single claim; if none qualifies, the whole trimmed text as a single
claim; zero claims for empty trimmed text. -/
theorem C9_extract_fallback_heuristic (text : Str) :
    extract_claims_via_llm text .err = heuristicClaimsSpec text ∧
    extract_claims_via_llm text .notArray = heuristicClaimsSpec text :=
  ⟨claimsFromHeuristic_eq_spec text, claimsFromHeuristic_eq_spec text⟩

/-- C7: a fact passes the entity filter of lexical search if and only if
`entity_ids` is absent (`none`) or explicitly empty (the falsy check
disables the filter), or the fact's subject entity is among the ids, or one
of its location entities is (a disjunction); consequently a fact whose
subject and locations are all excluded by a non-empty `entity_ids` never
appears in the results, regardless of token overlap (fact ids assumed
unique, per the data model). -/
theorem C7_entity_filter_disjunction (kg : KG) (query : Str) (ids : List Str)
    (top_k : Nat) (f : Fact)
    (hnd : (kg.facts.map (fun g => g.id)).Nodup)
    (hf : f ∈ kg.facts)
    (hne : ids ≠ [])
    (hsubj : f.subject_entity_id ∉ ids)
    (hloc : ∀ l ∈ f.location_entity_ids, l ∉ ids) :
    (∀ (eids : Option (List Str)) (fact : Fact),
      entityPass eids fact = true ↔
        (eids = none ∨ eids = some [] ∨
          ∃ ids', eids = some ids' ∧
            (fact.subject_entity_id ∈ ids' ∨
              ∃ l ∈ fact.location_entity_ids, l ∈ ids'))) ∧
    (∀ r ∈ search_kg kg query (some ids) top_k, r.fact_id ≠ f.id) := by
  constructor
  · intro eids fact
    cases eids with
    | none => simp [entityPass]
    | some ids' =>
      by_cases h : ids' = []
      · subst h
        simp [entityPass]
      · simp [entityPass, h, List.any_eq_true]
  · intro r hr
    obtain ⟨p, hp, rfl⟩ := of_mem_search_kg hr
    obtain ⟨hpf, hpass, -, -⟩ := of_mem_scoredFacts hp
    intro hid
    have hid' : p.2.id = f.id := hid
    have hpf2 : p.2 = f := List.inj_on_of_nodup_map hnd hpf hf hid'
    rw [hpf2] at hpass
    rw [entityPass, if_neg hne] at hpass
    rcases Bool.or_eq_true _ _ |>.mp hpass with hs | hl
    · exact hsubj (by simpa using hs)
    · rw [List.any_eq_true] at hl
      obtain ⟨l, hlmem, hlin⟩ := hl
      exact hloc l hlmem (by simpa using hlin)

/-- C7 witness: on the demo knowledge graph, with the non-empty entity
filter `["ent_zzz"]` that excludes `factAmber`'s subject and location, no
search result carries `factAmber`'s id. -/
theorem C7_entity_filter_disjunction_witness :
    (kgDemo.facts.map (fun g => g.id)).Nodup ∧
    factAmber ∈ kgDemo.facts ∧
    [str "ent_zzz"] ≠ [] ∧
    factAmber.subject_entity_id ∉ [str "ent_zzz"] ∧
    (∀ l ∈ factAmber.location_entity_ids, l ∉ [str "ent_zzz"]) ∧
    (∀ r ∈ search_kg kgDemo demoText (some [str "ent_zzz"]) 5,
      r.fact_id ≠ factAmber.id) :=
  ⟨by decide, by decide, by decide, by decide, by decide,
   (C7_entity_filter_disjunction kgDemo demoText [str "ent_zzz"] 5 factAmber
     (by decide) (by decide) (by decide) (by decide) (by decide)).2⟩

/-- C8: the entity linker returns an entity's id iff one of the entity's
name or aliases occurs, case-insensitively, as a substring of the input text
(no word-boundary or minimum-length requirement); linking is invariant under
changing the case of the input text, and under changing the case of the
entity names and aliases. -/
theorem C8_entity_linking_case_insensitive (kg kg' : KG) (t1 t2 : Str)
    (i : Str)
    (ht : lowerStr t1 = lowerStr t2)
    (he : List.Forall₂ entCaseEq kg.entities kg'.entities) :
    (i ∈ extract_entities kg t1 ↔
      ∃ e ∈ kg.entities, e.id = i ∧
        ∃ n ∈ e.name :: e.aliases,
          ∃ pre suf, lowerStr t1 = pre ++ lowerStr n ++ suf) ∧
    extract_entities kg t1 = extract_entities kg t2 ∧
    extract_entities kg t1 = extract_entities kg' t1 := by
  refine ⟨?_, ?_, ?_⟩
  · rw [extract_entities, List.mem_dedup, List.mem_map]
    constructor
    · rintro ⟨e, hef, rfl⟩
      obtain ⟨hin, hpred⟩ := List.mem_filter.mp hef
      obtain ⟨n, hn, hocc⟩ := List.any_eq_true.mp hpred
      obtain ⟨pre, suf, hps⟩ := (occursIn_iff _ _).mp hocc
      exact ⟨e, hin, rfl, n, hn, pre, suf, hps⟩
    · rintro ⟨e, hin, rfl, n, hn, pre, suf, hps⟩
      refine ⟨e, List.mem_filter.mpr ⟨hin, ?_⟩, rfl⟩
      exact List.any_eq_true.mpr ⟨n, hn, (occursIn_iff _ _).mpr ⟨pre, suf, hps⟩⟩
  · simp only [extract_entities, ht]
  · rw [extract_entities, extract_entities, extract_entities_ents_congr he]

/-- C8 witness: on the demo knowledge graph, linking an upper-cased text
and its lower-cased variant, against the original and an upper-cased entity
table, characterizes and preserves the linked ids. -/
theorem C8_entity_linking_case_insensitive_witness :
    lowerStr (str "near LAKESIDE now") = lowerStr (str "near lakeside NOW") ∧
    List.Forall₂ entCaseEq kgDemo.entities
      (⟨[⟨str "ent_lakeside", str "LAKESIDE city", str "place",
          [str "LAKESIDE"]⟩], [], []⟩ : KG).entities ∧
    extract_entities kgDemo (str "near LAKESIDE now") =
      extract_entities kgDemo (str "near lakeside NOW") ∧
    extract_entities kgDemo (str "near LAKESIDE now") =
      extract_entities (⟨[⟨str "ent_lakeside", str "LAKESIDE city", str "place",
          [str "LAKESIDE"]⟩], [], []⟩ : KG) (str "near LAKESIDE now") :=
  ⟨by decide, by refine List.Forall₂.cons ?_ List.Forall₂.nil; exact ⟨by decide, by decide, by decide⟩,
   (C8_entity_linking_case_insensitive kgDemo
      ⟨[⟨str "ent_lakeside", str "LAKESIDE city", str "place", [str "LAKESIDE"]⟩], [], []⟩
      (str "near LAKESIDE now") (str "near lakeside NOW") (str "ent_lakeside")
      (by decide)
      (by refine List.Forall₂.cons ?_ List.Forall₂.nil; exact ⟨by decide, by decide, by decide⟩)).2.1,
   (C8_entity_linking_case_insensitive kgDemo
      ⟨[⟨str "ent_lakeside", str "LAKESIDE city", str "place", [str "LAKESIDE"]⟩], [], []⟩
      (str "near LAKESIDE now") (str "near lakeside NOW") (str "ent_lakeside")
      (by decide)
      (by refine List.Forall₂.cons ?_ List.Forall₂.nil; exact ⟨by decide, by decide, by decide⟩)).2.2⟩

/-- C10: if the oracle's claim-extraction reply parses as a JSON array with
no non-empty strings (in particular `[]`), the extractor falls back to the
local heuristic instead of returning zero claims; hence for every input text
that is non-empty after trimming, claim extraction returns at least one
claim regardless of the oracle's reply. -/
theorem C10_extract_never_empty_on_nonempty_text (text : Str)
    (items : List (Option Str)) (reply : ExtractReply)
    (hclean : cleanedClaims items = [])
    (hne : strip text ≠ []) :
    extract_claims_via_llm text (.arr items) = claimsFromHeuristic text ∧
    extract_claims_via_llm text reply ≠ [] := by
  constructor
  · rw [extract_claims_via_llm, hclean]
  · cases reply with
    | err => exact claimsFromHeuristic_ne_nil hne
    | notArray => exact claimsFromHeuristic_ne_nil hne
    | arr items' =>
      rw [extract_claims_via_llm]
      cases h : cleanedClaims items' with
      | nil => exact claimsFromHeuristic_ne_nil hne
      | cons c cs => simp

/-- C10 witness: the empty JSON array reply on a non-trivial text falls back
to the heuristic and yields a claim. -/
theorem C10_extract_never_empty_on_nonempty_text_witness :
    cleanedClaims [] = [] ∧ strip demoText ≠ [] ∧
    (extract_claims_via_llm demoText (.arr []) = claimsFromHeuristic demoText ∧
      extract_claims_via_llm demoText (.arr []) ≠ []) :=
  ⟨by decide, by decide,
   C10_extract_never_empty_on_nonempty_text demoText [] (.arr [])
     (by decide) (by decide)⟩

/-- C1: every citation of the returned `VerificationResult` references a
fact id present in the knowledge graph, and that fact id appeared in the
evidence list passed to the verdict-assessment step for that request (any
oracle citation outside the supplied evidence having been filtered out
before the result is returned). -/
theorem C1_citations_in_kg_and_evidence (kg : KG) (rawText : Str)
    (er : ExtractReply) (ar : AssessReply) (c : Citation)
    (hc : c ∈ (verify kg rawText er ar).citations) :
    (∃ f ∈ kg.facts, f.id = c.fact_id) ∧
    c.fact_id ∈ (pipelineEvidence kg rawText er).map (fun e => e.fact_id) := by
  by_cases h1 : strip rawText = []
  · rw [verify_empty_text h1] at hc
    exact absurd hc (by simp)
  · cases h2 : extract_claims_via_llm (strip rawText) er with
    | nil =>
      rw [verify_no_claims h1 h2] at hc
      exact absurd hc (by simp)
    | cons claim rest =>
      by_cases h3 : search_kg kg claim (some (extract_entities kg claim)) 5 = []
      · rw [verify_no_evidence h1 h2 h3] at hc
        exact absurd hc (by simp)
      · rw [verify_assessed h1 h2 h3] at hc
        obtain ⟨hin, f, hf, hfid⟩ := of_mem_buildCitations hc
        refine ⟨⟨f, hf, hfid⟩, ?_⟩
        rw [pipelineEvidence_of_claim h1 h2]
        exact assess_citations_subset claim _ ar _ hin

/-- C1 witness: a concrete request whose assessment reply cites `fact_1`
yields that citation, which is backed by the knowledge graph and by the
evidence passed to assessment. -/
theorem C1_citations_in_kg_and_evidence_witness :
    (⟨str "fact_1", str "src_1"⟩ : Citation) ∈
      (verify kgDemo demoText erDemo
        (.ok (str "True") (some 1) [str "fact_1"] (str "ok"))).citations ∧
    ((∃ f ∈ kgDemo.facts, f.id = (⟨str "fact_1", str "src_1"⟩ : Citation).fact_id) ∧
      (⟨str "fact_1", str "src_1"⟩ : Citation).fact_id ∈
        (pipelineEvidence kgDemo demoText erDemo).map (fun e => e.fact_id)) :=
  ⟨by decide,
   C1_citations_in_kg_and_evidence kgDemo demoText erDemo
     (.ok (str "True") (some 1) [str "fact_1"] (str "ok"))
     ⟨str "fact_1", str "src_1"⟩ (by decide)⟩

/-- C3 counterexample: the claim "fact_id values are unique within the
citations sequence, for every oracle reply including ones that repeat a fact
id" is false on the code: an assessment reply citing `fact_1` twice produces
a result citing it twice — no deduplication is performed. -/
theorem C3_counterexample :
    ((verify kgDemo demoText erDemo
        (.ok (str "True") (some 1) [str "fact_1", str "fact_1"] (str "r"))).citations.map
      (fun c => c.fact_id)) = [str "fact_1", str "fact_1"] ∧
    ¬ ((verify kgDemo demoText erDemo
        (.ok (str "True") (some 1) [str "fact_1", str "fact_1"] (str "r"))).citations.map
      (fun c => c.fact_id)).Nodup := by
  constructor
  · decide
  · decide

/-- C3 (amended): citation fact ids preserve the multiplicity of the
oracle's citation list, so they are unique within the returned sequence
whenever the oracle's citation list contains no duplicate fact id (the code
performs no deduplication of its own). -/
theorem C3_citations_nodup_of_reply_nodup (kg : KG) (rawText : Str)
    (er : ExtractReply) (ar : AssessReply)
    (h : (replyCitationIds ar).Nodup) :
    ((verify kg rawText er ar).citations.map (fun c => c.fact_id)).Nodup := by
  by_cases h1 : strip rawText = []
  · rw [verify_empty_text h1]
    simp
  · cases h2 : extract_claims_via_llm (strip rawText) er with
    | nil =>
      rw [verify_no_claims h1 h2]
      simp
    | cons claim rest =>
      by_cases h3 : search_kg kg claim (some (extract_entities kg claim)) 5 = []
      · rw [verify_no_evidence h1 h2 h3]
        simp
      · rw [verify_assessed h1 h2 h3]
        show ((buildCitations kg _).map (fun c => c.fact_id)).Nodup
        rw [buildCitations_map_fact_id]
        exact h.sublist
          ((List.filter_sublist _).trans (assess_citations_sublist claim _ ar))

/-- C3 witness: a duplicate-free assessment reply yields duplicate-free
citation fact ids. -/
theorem C3_citations_nodup_of_reply_nodup_witness :
    (replyCitationIds
        (.ok (str "True") (some 1) [str "fact_1"] (str "r"))).Nodup ∧
    ((verify kgDemo demoText erDemo
        (.ok (str "True") (some 1) [str "fact_1"] (str "r"))).citations.map
      (fun c => c.fact_id)).Nodup :=
  ⟨by decide,
   C3_citations_nodup_of_reply_nodup kgDemo demoText erDemo
     (.ok (str "True") (some 1) [str "fact_1"] (str "r")) (by decide)⟩

/-- C4 counterexample: the claim "the verdict field is one of exactly the
four enum values, for every string the oracle may place in its reply's
verdict field" is false on the code: the verdict is passed through
unvalidated, so the oracle string "Possibly" reaches the result verbatim. -/
theorem C4_counterexample :
    (verify kgDemo demoText erDemo
        (.ok (str "Possibly") (some 1) [str "fact_1"] (str "r"))).verdict =
      str "Possibly" ∧
    ¬ (verify kgDemo demoText erDemo
        (.ok (str "Possibly") (some 1) [str "fact_1"] (str "r"))).verdict ∈
      verdictEnum := by
  constructor
  · decide
  · decide

/-- C4 (amended): the verdict of the returned result is one of the four
enum values True / False / Partly True / Unverifiable provided the oracle's
reply verdict is one of the four (the code passes the oracle's verdict
string through unvalidated; every fallback and short-circuit path produces
"Unverifiable"). -/
theorem C4_verdict_enum_of_reply_enum (kg : KG) (rawText : Str)
    (er : ExtractReply) (ar : AssessReply)
    (h : replyVerdictIsEnum ar = true) :
    (verify kg rawText er ar).verdict ∈ verdictEnum := by
  by_cases h1 : strip rawText = []
  · rw [verify_empty_text h1]
    simp [verdictEnum]
  · cases h2 : extract_claims_via_llm (strip rawText) er with
    | nil =>
      rw [verify_no_claims h1 h2]
      simp [verdictEnum]
    | cons claim rest =>
      by_cases h3 : search_kg kg claim (some (extract_entities kg claim)) 5 = []
      · rw [verify_no_evidence h1 h2 h3]
        simp [verdictEnum]
      · rw [verify_assessed h1 h2 h3]
        cases ar with
        | err => simp [assess_claim_via_llm, verdictEnum]
        | malformed => simp [assess_claim_via_llm, verdictEnum]
        | ok v conf cits r =>
          show v ∈ verdictEnum
          rw [replyVerdictIsEnum] at h
          exact of_decide_eq_true h

/-- C4 witness: a compliant reply verdict "True" on a concrete request ends
up among the four enum values. -/
theorem C4_verdict_enum_of_reply_enum_witness :
    replyVerdictIsEnum
        (.ok (str "True") (some 1) [str "fact_1"] (str "r")) = true ∧
    (verify kgDemo demoText erDemo
        (.ok (str "True") (some 1) [str "fact_1"] (str "r"))).verdict ∈
      verdictEnum :=
  ⟨by decide,
   C4_verdict_enum_of_reply_enum kgDemo demoText erDemo
     (.ok (str "True") (some 1) [str "fact_1"] (str "r")) (by decide)⟩

end FactLens
